import Mathlib

/-!
Verification of the deploy-queue deployment serialization tool.

Timestamps are modelled as integers (instants on a discrete clock);
durations exchanged between timestamps are likewise integers, except for
the duration-conversion layer where `time::Duration` values are whole
numbers of nanoseconds.  Database rows are Lean structures, the
`deployments` table is a list of rows, and each SQL statement is a pure
function on that list.  Fallible operations return `Except String`.

Definitions come first, theorems afterwards.
-/

namespace DeployQueue

/-- A row of the `deployments` table (fields of `model.rs` `Deployment`,
flattened like the `lib.rs` `Deployment` struct; `buffer_time` is the
joined `environments.buffer_time` of the row's environment). -/
structure Deployment where
  id : Int
  environment : String
  cloud_provider : String
  region : String
  cell_index : Int
  component : String
  version : Option String
  url : Option String
  note : Option String
  concurrency_key : Option String
  start_timestamp : Option Int
  finish_timestamp : Option Int
  cancellation_timestamp : Option Int
  cancellation_note : Option String
  heartbeat_timestamp : Option Int
  buffer_time : Int
deriving Repr, DecidableEq

/-- `DeploymentState` from `model.rs`. -/
inductive DeploymentState where
  | Queued
  | Running
  | Finished
  | Cancelled
deriving Repr, DecidableEq

/-- `DeploymentState::from_timestamps` from `model.rs`: the Rust `match`
on the triple `(start, finish, cancel)`, in source order. -/
def DeploymentState.from_timestamps :
    Option Int → Option Int → Option Int → DeploymentState
  | _, _, some _ => .Cancelled
  | _, some _, none => .Finished
  | some _, none, none => .Running
  | none, none, none => .Queued

/-- State of a row, shorthand for `from_timestamps` on its lifecycle
timestamps. -/
def Deployment.state (d : Deployment) : DeploymentState :=
  DeploymentState.from_timestamps d.start_timestamp d.finish_timestamp
    d.cancellation_timestamp

/-- The five-state `DeploymentState` of the legacy binary `main.rs`. -/
inductive LegacyDeploymentState where
  | Queued
  | Running
  | FinishedInBuffer
  | Finished
  | Cancelled
deriving Repr, DecidableEq

/-- `From<&Deployment> for DeploymentState` from `main.rs`: the legacy
projection, which also reads the clock and the row's buffer time in its
last branch. -/
def legacy_state (now buffer : Int)
    (start finish cancel : Option Int) : LegacyDeploymentState :=
  if start.isNone then .Queued
  else if cancel.isSome then .Cancelled
  else if finish.isNone then .Running
  else if finish.isSome && decide (finish.getD 0 < now - buffer) then .FinishedInBuffer
  else .Finished

/-- Identification of the legacy `Finished`/`FinishedInBuffer` pair with
the current `Finished` variant. -/
def LegacyDeploymentState.collapse : LegacyDeploymentState → DeploymentState
  | .Queued => .Queued
  | .Running => .Running
  | .FinishedInBuffer => .Finished
  | .Finished => .Finished
  | .Cancelled => .Cancelled

/-- `same_cell(D, C)` of the blocking predicate (spec §4.3): equal
environment, cloud provider, region and cell index. -/
def same_cell (d c : Deployment) : Bool :=
  d.environment == c.environment && d.cloud_provider == c.cloud_provider &&
    d.region == c.region && d.cell_index == c.cell_index

/-- `not_in_same_concurrency_group(D, C)` (spec §4.3): SQL three-valued
logic collapsed — the test is false only when both keys are non-null and
equal. -/
def not_in_same_concurrency_group (d c : Deployment) : Bool :=
  match d.concurrency_key, c.concurrency_key with
  | some dk, some ck => dk != ck
  | _, _ => true

/-- `active(D, now)` (spec §4.3): not cancelled, and either unfinished or
finished strictly later than `now - buffer_time(D.environment)`. -/
def active (bt : String → Int) (now : Int) (d : Deployment) : Bool :=
  d.cancellation_timestamp.isNone &&
    (match d.finish_timestamp with
      | none => true
      | some f => decide (f > now - bt d.environment))

/-- Modelled from the spec: the file `queries/blocking_deployments.sql`
(run by `fetch::blocking_deployments` and `check_blocking_deployments`)
is not part of the sources; this is the set `B(C)` of spec §4.3, ordered
by id ascending.  `bt` is the `environments.buffer_time` mapping. -/
def blocking_deployments (bt : String → Int) (table : List Deployment)
    (c : Deployment) (now : Int) : List Deployment :=
  (table.filter fun d =>
      decide (d.id < c.id) && same_cell d c &&
        not_in_same_concurrency_group d c && active bt now d).insertionSort
    (fun a b => a.id ≤ b.id)

instance : IsTotal Deployment (fun a b => a.id ≤ b.id) :=
  ⟨fun a b => Int.le_total a.id b.id⟩

instance : IsTrans Deployment (fun a b => a.id ≤ b.id) :=
  ⟨fun _ _ _ hab hbc => le_trans hab hbc⟩

/-- `verify_deployment_can_be_finished` from `main.rs`: started, not
finished, not cancelled. -/
def verify_deployment_can_be_finished (d : Deployment) : Bool :=
  d.start_timestamp.isSome && d.finish_timestamp.isNone &&
    d.cancellation_timestamp.isNone

/-- `verify_deployment_can_be_cancelled` from `main.rs`: not finished and
not already cancelled. -/
def verify_deployment_can_be_cancelled (d : Deployment) : Bool :=
  d.finish_timestamp.isNone && d.cancellation_timestamp.isNone

/-- `UPDATE deployments SET cancellation_timestamp = NOW(),
cancellation_note = $2` applied to a single row. -/
def apply_cancel (now : Int) (note : Option String) (d : Deployment) :
    Deployment :=
  { d with cancellation_timestamp := some now, cancellation_note := note }

/-- `UPDATE deployments SET finish_timestamp = NOW()` applied to a single
row. -/
def apply_finish (now : Int) (d : Deployment) : Deployment :=
  { d with finish_timestamp := some now }

/-- Modelled from the spec: the migrations directory is not part of the
sources, so the store trigger realizing invariant I4 ("further
transitions are rejected" on terminal rows; the integration tests assert
the resulting errors) is modelled as a guard on each UPDATE statement: a
statement whose matched rows include one failing the guard raises, and a
raised statement leaves the table unchanged. -/
def guarded_update (matched : Deployment → Bool) (guard : Deployment → Bool)
    (f : Deployment → Deployment) (table : List Deployment) :
    Except String (List Deployment) :=
  if table.any fun d => matched d && !guard d then
    .error "invalid deployment state transition"
  else
    .ok (table.map fun d => if matched d then f d else d)

/-- The table after running a statement: a raised statement writes
nothing. -/
def db_after (table : List Deployment)
    (r : Except String (List Deployment)) : List Deployment :=
  match r with
  | .ok t => t
  | .error _ => table

/-- `cancel::deployment` from `handler/cancel.rs`: cancel a single row by
id (the update itself is unconditional; the store guard applies). -/
def cancel_deployment (table : List Deployment) (id : Int)
    (note : Option String) (now : Int) : Except String (List Deployment) :=
  guarded_update (fun d => d.id == id) verify_deployment_can_be_cancelled
    (apply_cancel now note) table

/-- `cancel::by_component_version` from `handler/cancel.rs`: cancel all
rows matching both component and version. -/
def cancel_by_component_version (table : List Deployment)
    (component ver : String) (note : Option String) (now : Int) :
    Except String (List Deployment) :=
  guarded_update
    (fun d => d.component == component && d.version == some ver)
    verify_deployment_can_be_cancelled (apply_cancel now note) table

/-- `cancel::by_location` from `handler/cancel.rs`: cancel all rows
matching environment, cloud provider, region, and the cell index when
one is given. -/
def cancel_by_location (table : List Deployment)
    (environment cp region : String) (cell_index : Option Int)
    (note : Option String) (now : Int) : Except String (List Deployment) :=
  guarded_update
    (fun d => d.environment == environment && d.cloud_provider == cp &&
      d.region == region &&
      match cell_index with
      | some i => d.cell_index == i
      | none => true)
    verify_deployment_can_be_cancelled (apply_cancel now note) table

/-- The `finish` verb of `main.rs`: look the row up, bail unless
`verify_deployment_can_be_finished` holds, then issue the update. -/
def finish_deployment_verb (table : List Deployment) (id now : Int) :
    Except String (List Deployment) :=
  match table.find? (fun d => d.id == id) with
  | none =>
    .error "Deployment cannot be finished (not started or already finished or cancelled)"
  | some d =>
    if verify_deployment_can_be_finished d then
      .ok (table.map fun r => if r.id == id then apply_finish now r else r)
    else
      .error "Deployment cannot be finished (not started or already finished or cancelled)"

/-- `HEARTBEAT_TIMEOUT` from `constants.rs`, in seconds. -/
def HEARTBEAT_TIMEOUT : Int := 15 * 60

/-- A row the stale-heartbeat query flags: running, with a heartbeat
strictly older than the timeout. -/
def is_stale (timeout now : Int) (d : Deployment) : Bool :=
  decide (d.state = .Running) &&
    (match d.heartbeat_timestamp with
      | some h => decide (now - h > timeout)
      | none => false)

/-- Modelled from the spec: `fetch::stale_heartbeat_deployments` is not
part of the sources; spec §4.5 queries for deployments satisfying
`state=Running AND (now − heartbeat_timestamp) > HEARTBEAT_TIMEOUT`. -/
def stale_heartbeat_deployments (table : List Deployment)
    (now timeout : Int) : List Deployment :=
  table.filter (is_stale timeout now)

/-- The cancellation note `cancel_stale_heartbeat_deployments` formats
for the caller deployment. -/
def stale_cancellation_note (caller_id : Int) : String :=
  "Cancelled by deployment " ++ toString caller_id ++
    " due to stale heartbeat"

/-- `cancel_stale_heartbeat_deployments` from `handler/mod.rs`: fetch the
stale rows, then cancel each one by id with the formatted note. -/
def cancel_stale_heartbeat_deployments (table : List Deployment)
    (caller_id now : Int) : Except String (List Deployment) :=
  (stale_heartbeat_deployments table now HEARTBEAT_TIMEOUT).foldlM
    (fun tbl d =>
      cancel_deployment tbl d.id (some (stale_cancellation_note caller_id))
        now)
    table

/-- One iteration of `wait_for_blocking_deployments` from
`handler/mod.rs`: sweep stale heartbeats first, then read the blockers of
the caller from the swept table. -/
def wait_loop_iteration (bt : String → Int) (table : List Deployment)
    (caller_id now : Int) :
    Except String (List Deployment × List Deployment) := do
  let swept ← cancel_stale_heartbeat_deployments table caller_id now
  match swept.find? (fun d => d.id == caller_id) with
  | some c => .ok (swept, blocking_deployments bt swept c now)
  | none => .ok (swept, [])

/-- Proof-side bookkeeping for the sweep: the rows whose ids are in
`done` have been cancelled so far. -/
def sweep_mark (now : Int) (note : Option String)
    (stale_p : Deployment → Bool) (done : List Int) (d : Deployment) :
    Deployment :=
  if stale_p d && decide (d.id ∈ done) then apply_cancel now note d else d

/-- `HEARTBEAT_MAX_CONSECUTIVE_FAILURES` from `run_heartbeat_loop`. -/
def HEARTBEAT_MAX_CONSECUTIVE_FAILURES : Nat := 3

/-- `run_heartbeat_loop` from `handler/mod.rs`, over a finite trace of
attempt outcomes (`true` = the timed update succeeded).  A success resets
the consecutive-failure counter, a failure bumps it, and the loop bails
once it reaches the maximum; a fully consumed trace means the loop was
still running (it only stops by external cancellation), carrying its
counter. -/
def run_heartbeat_loop (consecutive_failures : Nat) :
    List Bool → Except String Nat
  | [] => .ok consecutive_failures
  | attempt :: rest =>
    let n := if attempt then 0 else consecutive_failures + 1
    if HEARTBEAT_MAX_CONSECUTIVE_FAILURES ≤ n then
      .error "Heartbeat loop failed 3 times consecutively"
    else
      run_heartbeat_loop n rest

/-- Three consecutive failed attempts somewhere in a trace. -/
def has_three_consecutive_failures : List Bool → Bool
  | false :: false :: false :: _ => true
  | _ :: rest => has_three_consecutive_failures rest
  | [] => false

/-- Length of the leading run of failures of a trace. -/
def leading_failures : List Bool → Nat
  | false :: rest => leading_failures rest + 1
  | _ => 0

/-- `BlockingDeployment::remaining_time` from `model.rs`: per state, the
remaining deployment time (if analytics has an average) and the
applicable buffer time; fails on a cancelled blocker. -/
def remaining_time (d : Deployment) (avg_duration : Option Int)
    (now : Int) : Except String (Option Int × Int) :=
  match d.state with
  | .Queued => .ok (avg_duration, d.buffer_time)
  | .Running =>
    match d.start_timestamp, avg_duration with
    | some start_time, some avg =>
      .ok (some (max (avg - (now - start_time)) 0), d.buffer_time)
    | _, _ => .ok (none, d.buffer_time)
  | .Finished =>
    match d.finish_timestamp with
    | some finish_time =>
      .ok (none, max (d.buffer_time - (now - finish_time)) 0)
    | none => .error "Finish timestamp is required for finished deployment"
  | .Cancelled => .error "Cancelled deployment is blocking"

/-- `i64::MAX`. -/
def I64_MAX : Int := 9223372036854775807

/-- The `as i64` cast: two's-complement wrap-around into the `i64`
range. -/
def wrap_i64 (n : Int) : Int := (n + 2 ^ 63) % 2 ^ 64 - 2 ^ 63

/-- `Duration::whole_microseconds` of the `time` crate on a duration of
`ns` nanoseconds: division by 1000 truncating towards zero. -/
def whole_microseconds (ns : Int) : Int := Int.tdiv ns 1000

/-- `sqlx` `PgInterval`. -/
structure PgInterval where
  months : Int
  days : Int
  microseconds : Int
deriving Repr, DecidableEq

/-- `<time::Duration as DurationExt>::to_pg_interval` from
`duration_ext.rs`: take the whole microseconds, reject values above
`i64::MAX`, and build the canonical months=0, days=0 interval. -/
def to_pg_interval (d : Int) : Except String PgInterval :=
  let microseconds := whole_microseconds d
  if I64_MAX < microseconds then
    .error "Duration too large to convert to PgInterval"
  else
    .ok { months := 0, days := 0, microseconds := wrap_i64 microseconds }

/-- `<PgInterval as DurationExt>::to_duration` from `duration_ext.rs`:
reject non-zero months or days, else `Duration::microseconds(n)` (in
nanoseconds: `n * 1000`). -/
def pg_interval_to_duration (i : PgInterval) : Except String Int :=
  if i.months ≠ 0 ∨ i.days ≠ 0 then
    .error "Cannot convert PgInterval with months or days to Duration"
  else
    .ok (i.microseconds * 1000)

/-- The duration → interval → duration round trip of spec (R1). -/
def duration_roundtrip (d : Int) : Except String Int := do
  let i ← to_pg_interval d
  pg_interval_to_duration i

/-- Physical lines of a character sequence: split at every newline. -/
def lines_of : List Char → List (List Char)
  | [] => [[]]
  | c :: cs =>
    let ls := lines_of cs
    if c = '\n' then [] :: ls
    else
      match ls with
      | [] => [[c]]
      | l :: t => (c :: l) :: t

/-- Join physical lines back with newlines. -/
def join_lines : List (List Char) → List Char
  | [] => []
  | [l] => l
  | l :: ls => l ++ '\n' :: join_lines ls

/-- The three `writeln!` calls of `write_output` from `util/github.rs`:
`KEY<<DELIM`, the value, and the delimiter, each newline-terminated. -/
def encode_output (key delim value : List Char) : List Char :=
  (key ++ ['<', '<'] ++ delim ++ ['\n']) ++
    (value ++ ['\n']) ++ (delim ++ ['\n'])

/-- `write_output` from `util/github.rs`: when the `GITHUB_OUTPUT`
variable is set the encoded record is appended to the file it names;
when it is unset nothing is written and the call succeeds. -/
def write_output (github_output : Option String)
    (file key delim value : List Char) : Except String (List Char) :=
  match github_output with
  | none => .ok file
  | some _ => .ok (file ++ encode_output key delim value)

/-- How GitHub Actions reads a delimiter record back: drop the header
line, take lines until the delimiter line, join them. -/
def parse_delimited_value (delim : List Char)
    (content : List Char) : List Char :=
  join_lines (((lines_of content).drop 1).takeWhile (fun l => l ≠ delim))

/-- Fixture: a queued row (mirrors `create_test_deployment`). -/
def test_deployment_row : Deployment :=
  { id := 1, environment := "dev", cloud_provider := "aws",
    region := "test-region-0", cell_index := 1,
    component := "test-component-0", version := some "v1.0.0",
    url := some "https://github.com/test", note := some "test deployment",
    concurrency_key := none, start_timestamp := none,
    finish_timestamp := none, cancellation_timestamp := none,
    cancellation_note := none, heartbeat_timestamp := none,
    buffer_time := 0 }

/-- Fixture: a running row with a heartbeat (mirrors
`create_running_deployment`). -/
def running_deployment_row : Deployment :=
  { test_deployment_row with
    id := 2
    start_timestamp := some 0
    heartbeat_timestamp := some 0 }

/-- Fixture: a cancelled row (mirrors `create_cancelled_deployment`). -/
def cancelled_deployment_row : Deployment :=
  { test_deployment_row with
    id := 3
    cancellation_timestamp := some 5
    cancellation_note := some "Test cancellation" }

/-- Fixture: a finished row (mirrors `create_finished_deployment`). -/
def finished_deployment_row : Deployment :=
  { test_deployment_row with
    id := 4
    start_timestamp := some 0
    finish_timestamp := some 600 }

end DeployQueue

namespace DeployQueue

/-! ## Theorems -/

/-- C4: `DeploymentState::from_timestamps` applies the spec's priority
order: `Cancelled` whenever the cancellation timestamp is set, else
`Finished` whenever the finish timestamp is set, else `Running` whenever
the start timestamp is set, else `Queued` — for every combination of the
three timestamps. -/
theorem from_timestamps_priority_order (start finish cancel : Option Int) :
    DeploymentState.from_timestamps start finish cancel =
      if cancel.isSome then .Cancelled
      else if finish.isSome then .Finished
      else if start.isSome then .Running
      else .Queued := by
  cases start <;> cases finish <;> cases cancel <;> rfl

/-- Counterexample to C10: on a record whose cancellation timestamp is
set while the start timestamp is unset, the legacy projection of
`main.rs` answers `Queued` while `model.rs` answers `Cancelled`. -/
theorem legacy_state_disagrees_when_cancelled_unstarted :
    (legacy_state 0 0 none none (some 0)).collapse = .Queued ∧
      DeploymentState.from_timestamps none none (some 0) = .Cancelled :=
  ⟨rfl, rfl⟩

/-- C10 (amended): the legacy projection of `main.rs` and
`DeploymentState::from_timestamps` agree (identifying the legacy
`Finished` and `FinishedInBuffer` variants with `Finished`) whenever the
start timestamp is set, and on records with no timestamps at all; they
can disagree only when the start timestamp is unset while the finish or
cancellation timestamp is set. -/
theorem legacy_state_agrees_when_started (now buffer : Int)
    (start finish cancel : Option Int)
    (h : start.isSome ∨ (finish = none ∧ cancel = none)) :
    (legacy_state now buffer start finish cancel).collapse =
      DeploymentState.from_timestamps start finish cancel := by
  cases start <;> cases finish <;> cases cancel <;>
    simp_all [legacy_state, LegacyDeploymentState.collapse,
      DeploymentState.from_timestamps] <;>
  split <;> rename_i heq <;> first
  | rfl
  | (split at heq <;> simp_all)

/-- Witness for `legacy_state_agrees_when_started` at a concrete
started-and-finished record. -/
theorem legacy_state_agrees_when_started_witness :
    (legacy_state 10 3 (some 0) (some 5) none).collapse =
      DeploymentState.from_timestamps (some 0) (some 5) none :=
  legacy_state_agrees_when_started 10 3 (some 0) (some 5) none (Or.inl (by decide))

theorem same_cell_iff (d c : Deployment) :
    same_cell d c = true ↔
      d.environment = c.environment ∧ d.cloud_provider = c.cloud_provider ∧
        d.region = c.region ∧ d.cell_index = c.cell_index := by
  simp [same_cell, and_assoc]

theorem not_in_same_concurrency_group_iff (d c : Deployment) :
    not_in_same_concurrency_group d c = true ↔
      ¬ ∃ k, d.concurrency_key = some k ∧ c.concurrency_key = some k := by
  constructor
  · intro h hk
    obtain ⟨k, hd, hc⟩ := hk
    unfold not_in_same_concurrency_group at h
    rw [hd, hc] at h
    simp at h
  · intro h
    unfold not_in_same_concurrency_group
    cases hd : d.concurrency_key with
    | none => rfl
    | some dk =>
      cases hc : c.concurrency_key with
      | none => rfl
      | some ck =>
        have hne : dk ≠ ck := fun hEq => h ⟨dk, hd, by rw [hc, hEq]⟩
        simpa [bne_iff_ne] using hne

theorem active_iff (bt : String → Int) (now : Int) (d : Deployment) :
    active bt now d = true ↔
      d.cancellation_timestamp = none ∧
        (d.finish_timestamp = none ∨
          ∃ f, d.finish_timestamp = some f ∧ f > now - bt d.environment) := by
  cases hf : d.finish_timestamp <;>
    simp [active, hf, Option.isNone_iff_eq_none]

/-- C1: for every candidate `C`, the blocking-deployments query returns
exactly the deployments `D` with `D.id < C.id`, in the same cell as `C`,
not in the same concurrency group as `C` (both carrying the same
non-null concurrency key is the only bypass), and active (no
cancellation, and no finish or a finish strictly later than `now` minus
the buffer time of `D`'s environment) — and the result is ordered by id
ascending. -/
theorem blocking_deployments_spec (bt : String → Int)
    (table : List Deployment) (c : Deployment) (now : Int) :
    (∀ d, d ∈ blocking_deployments bt table c now ↔
      d ∈ table ∧ d.id < c.id ∧
        (d.environment = c.environment ∧ d.cloud_provider = c.cloud_provider ∧
          d.region = c.region ∧ d.cell_index = c.cell_index) ∧
        (¬ ∃ k, d.concurrency_key = some k ∧ c.concurrency_key = some k) ∧
        d.cancellation_timestamp = none ∧
        (d.finish_timestamp = none ∨
          ∃ f, d.finish_timestamp = some f ∧ f > now - bt d.environment)) ∧
    (blocking_deployments bt table c now).Pairwise (fun a b => a.id ≤ b.id) := by
  constructor
  · intro d
    rw [blocking_deployments,
      (List.perm_insertionSort (fun a b : Deployment => a.id ≤ b.id)
        _).mem_iff]
    simp only [List.mem_filter, Bool.and_eq_true, decide_eq_true_eq,
      same_cell_iff, not_in_same_concurrency_group_iff, active_iff]
    tauto
  · exact List.sorted_insertionSort (fun a b : Deployment => a.id ≤ b.id)
      (table.filter fun d =>
        decide (d.id < c.id) && same_cell d c &&
          not_in_same_concurrency_group d c && active bt now d)

theorem guarded_update_preserves_unguarded_rows
    (matched guard : Deployment → Bool) (f : Deployment → Deployment)
    (table : List Deployment) (i : Nat) (hi : i < table.length)
    (hguard : guard table[i] = false) :
    (db_after table (guarded_update matched guard f table))[i]? =
      some table[i] := by
  unfold guarded_update
  by_cases hany : (table.any fun d => matched d && !guard d) = true
  · simp [hany, db_after, List.getElem?_eq_getElem hi]
  · have hmatched : matched table[i] = false := by
      by_contra hm
      rw [Bool.not_eq_false] at hm
      simp only [List.any_eq_true, Bool.and_eq_true, Bool.not_eq_true'] at hany
      exact hany ⟨table[i], List.getElem_mem hi, hm, hguard⟩
    simp [hany, db_after, List.getElem?_map, List.getElem?_eq_getElem hi,
      hmatched]

/-- C2: re-issuing a cancellation over a row that is already cancelled —
whether by id, by component and version, or by location — leaves that
row, and in particular its cancellation timestamp, exactly as it was. -/
theorem cancel_reissue_is_noop (table : List Deployment)
    (now t : Int) (note : Option String) (i : Nat) (hi : i < table.length)
    (hc : table[i].cancellation_timestamp = some t) :
    (∀ id, (db_after table (cancel_deployment table id note now))[i]? =
      some table[i]) ∧
    (∀ component ver,
      (db_after table
        (cancel_by_component_version table component ver note now))[i]? =
        some table[i]) ∧
    (∀ environment cp region cell_index,
      (db_after table
        (cancel_by_location table environment cp region cell_index
          note now))[i]? = some table[i]) := by
  have hguard : verify_deployment_can_be_cancelled table[i] = false := by
    simp [verify_deployment_can_be_cancelled, hc]
  refine ⟨fun id => ?_, fun component ver => ?_,
    fun environment cp region cell_index => ?_⟩ <;>
    exact guarded_update_preserves_unguarded_rows _ _ _ table i hi hguard

theorem verify_can_be_finished_iff_running (d : Deployment) :
    verify_deployment_can_be_finished d = true ↔ d.state = .Running := by
  cases hs : d.start_timestamp <;> cases hf : d.finish_timestamp <;>
    cases hc : d.cancellation_timestamp <;>
    simp [verify_deployment_can_be_finished, Deployment.state,
      DeploymentState.from_timestamps, hs, hf, hc]

/-- C3: the finish verb on a row that is not running — queued, already
finished, or cancelled — bails with an error and leaves the table (in
particular the row's timestamps) unchanged; it performs the update
exactly when the row is running, and then only sets that row's finish
timestamp. -/
theorem finish_requires_running (table : List Deployment) (id now : Int)
    (d : Deployment) (hfind : table.find? (fun r => r.id == id) = some d) :
    (d.state ≠ .Running →
      (∃ e, finish_deployment_verb table id now = .error e) ∧
        db_after table (finish_deployment_verb table id now) = table) ∧
    (d.state = .Running →
      finish_deployment_verb table id now =
        .ok (table.map fun r =>
          if r.id == id then apply_finish now r else r)) := by
  constructor
  · intro hstate
    have hverify : verify_deployment_can_be_finished d = false := by
      rw [← Bool.not_eq_true, verify_can_be_finished_iff_running]
      exact hstate
    unfold finish_deployment_verb
    rw [hfind]
    simp [hverify, db_after]
  · intro hstate
    have hverify : verify_deployment_can_be_finished d = true :=
      (verify_can_be_finished_iff_running d).mpr hstate
    unfold finish_deployment_verb
    rw [hfind]
    simp [hverify]

/-- Witness for `finish_requires_running`: finishing the queued fixture
row errors and writes nothing. -/
theorem finish_requires_running_witness :
    (∃ e, finish_deployment_verb [test_deployment_row] 1 42 = .error e) ∧
      db_after [test_deployment_row]
        (finish_deployment_verb [test_deployment_row] 1 42) =
        [test_deployment_row] :=
  (finish_requires_running [test_deployment_row] 1 42 test_deployment_row
    rfl).1 (by decide)

/-- C7: `remaining_time` per blocker state: a queued blocker yields the
analytics average (if any) plus its buffer time; a running blocker with
analytics yields the average minus elapsed time clamped at zero, plus
the buffer; a running blocker without analytics yields an unknown
deployment part but the buffer still applies; a finished blocker yields
no deployment part and the unelapsed remainder of the buffer clamped at
zero; a cancelled blocker makes the call fail with an error. -/
theorem remaining_time_spec (d : Deployment) (avg : Option Int)
    (now : Int) :
    (d.state = .Queued →
      remaining_time d avg now = .ok (avg, d.buffer_time)) ∧
    (d.state = .Running → ∀ s a, d.start_timestamp = some s →
      avg = some a →
      remaining_time d avg now =
        .ok (some (max (a - (now - s)) 0), d.buffer_time)) ∧
    (d.state = .Running → avg = none →
      remaining_time d avg now = .ok (none, d.buffer_time)) ∧
    (d.state = .Finished → ∀ f, d.finish_timestamp = some f →
      remaining_time d avg now =
        .ok (none, max (d.buffer_time - (now - f)) 0)) ∧
    (d.state = .Cancelled →
      ∃ e, remaining_time d avg now = .error e) := by
  cases hs : d.start_timestamp <;> cases hf : d.finish_timestamp <;>
    cases hc : d.cancellation_timestamp <;> cases havg : avg <;>
    simp_all [remaining_time, Deployment.state,
      DeploymentState.from_timestamps, hs, hf, hc]

/-- Witness for `remaining_time_spec`: on the cancelled fixture row the
call fails. -/
theorem remaining_time_spec_witness :
    ∃ e, remaining_time cancelled_deployment_row none 0 = .error e :=
  (remaining_time_spec cancelled_deployment_row none 0).2.2.2.2 (by decide)

/-- Counterexample to C8: the round trip is not the identity on every
non-negative `time::Duration` of at most `i64::MAX` microseconds — the
one-nanosecond duration (non-negative, zero whole microseconds) comes
back as the zero duration. -/
theorem duration_roundtrip_drops_nanoseconds :
    duration_roundtrip 1 = .ok 0 ∧ (0 : Int) ≠ 1 := by
  constructor
  · rfl
  · decide

/-- C8 (amended): the duration → interval → duration round trip is the
identity on non-negative durations that are a whole number of
microseconds, up to `i64::MAX` microseconds (sub-microsecond precision
is truncated by `whole_microseconds`, so it is not the identity on
arbitrary nanosecond durations). -/
theorem duration_roundtrip_id_on_whole_microseconds (m : Int)
    (h0 : 0 ≤ m) (hmax : m ≤ I64_MAX) :
    duration_roundtrip (1000 * m) = .ok (1000 * m) := by
  have hwm : whole_microseconds (1000 * m) = m := by
    unfold whole_microseconds
    exact Int.mul_tdiv_cancel_left m (by decide)
  have hwrap : wrap_i64 m = m := by
    unfold wrap_i64
    have hIm : I64_MAX = 2 ^ 63 - 1 := by decide
    have hlo : (0 : Int) ≤ m + 2 ^ 63 := by omega
    have hhi : m + 2 ^ 63 < 2 ^ 64 := by
      have : (2 : Int) ^ 64 = 2 ^ 63 + 2 ^ 63 := by norm_num
      omega
    rw [Int.emod_eq_of_lt hlo hhi]
    omega
  have hguard : ¬ I64_MAX < m := not_lt.mpr hmax
  unfold duration_roundtrip to_pg_interval
  rw [hwm]
  simp only [hguard, if_false]
  show pg_interval_to_duration
      { months := 0, days := 0, microseconds := wrap_i64 m } =
    .ok (1000 * m)
  unfold pg_interval_to_duration
  simp [hwrap, Int.mul_comm]

/-- Witness for `duration_roundtrip_id_on_whole_microseconds` at seven
microseconds. -/
theorem duration_roundtrip_id_witness :
    duration_roundtrip 7000 = .ok 7000 :=
  duration_roundtrip_id_on_whole_microseconds 7 (by decide) (by decide)

theorem has_three_of_leading_ge_three (l : List Bool)
    (h : 3 ≤ leading_failures l) : has_three_consecutive_failures l = true := by
  match l with
  | [] => simp [leading_failures] at h
  | true :: r => simp [leading_failures] at h
  | false :: [] => simp [leading_failures] at h
  | false :: true :: r => simp [leading_failures] at h
  | false :: false :: [] => simp [leading_failures] at h
  | false :: false :: true :: r => simp [leading_failures] at h
  | false :: false :: false :: r => rfl

theorem has_three_cons_false (r : List Bool) :
    has_three_consecutive_failures (false :: r) = true ↔
      2 ≤ leading_failures r ∨ has_three_consecutive_failures r = true := by
  match r with
  | [] => simp [has_three_consecutive_failures, leading_failures]
  | true :: r' => simp [has_three_consecutive_failures, leading_failures]
  | false :: [] => simp [has_three_consecutive_failures, leading_failures]
  | false :: true :: r' =>
    simp [has_three_consecutive_failures, leading_failures]
  | false :: false :: r' =>
    simp [has_three_consecutive_failures, leading_failures]

theorem run_heartbeat_loop_error_iff (l : List Bool) : ∀ n : Nat, n ≤ 2 →
    ((∃ e, run_heartbeat_loop n l = .error e) ↔
      3 ≤ n + leading_failures l ∨
        has_three_consecutive_failures l = true) := by
  induction l with
  | nil =>
    intro n hn
    simp [run_heartbeat_loop, leading_failures, has_three_consecutive_failures]
    omega
  | cons a r ih =>
    intro n hn
    cases a with
    | true =>
      have hrw : run_heartbeat_loop n (true :: r) = run_heartbeat_loop 0 r := rfl
      rw [hrw, ih 0 (by omega)]
      have h1 : leading_failures (true :: r) = 0 := rfl
      have h2 : has_three_consecutive_failures (true :: r) =
          has_three_consecutive_failures r := rfl
      rw [h1, h2]
      constructor
      · rintro (h | h)
        · exact Or.inr (has_three_of_leading_ge_three r (by omega))
        · exact Or.inr h
      · rintro (h | h)
        · omega
        · exact Or.inr h
    | false =>
      have hlead : leading_failures (false :: r) = leading_failures r + 1 := rfl
      by_cases h3 : 3 ≤ n + 1
      · have hrw : run_heartbeat_loop n (false :: r) =
            .error "Heartbeat loop failed 3 times consecutively" := by
          simp [run_heartbeat_loop, HEARTBEAT_MAX_CONSECUTIVE_FAILURES, h3]
        rw [hrw]
        constructor
        · intro _
          left
          omega
        · intro _
          exact ⟨_, rfl⟩
      · have hrw : run_heartbeat_loop n (false :: r) =
            run_heartbeat_loop (n + 1) r := by
          simp [run_heartbeat_loop, HEARTBEAT_MAX_CONSECUTIVE_FAILURES, h3]
        rw [hrw, ih (n + 1) (by omega), hlead, has_three_cons_false]
        constructor
        · rintro (h | h)
          · left; omega
          · right; right; exact h
        · rintro (h | h | h)
          · left; omega
          · left; omega
          · right; exact h

/-- C6: the heartbeat writer loop exits with an error exactly when the
attempt trace contains three consecutive failures; a successful attempt
resets the consecutive-failure counter to zero; and on a trace without
three consecutive failures the loop never exits on its own — it is still
running (result `ok` with its current counter) after consuming the whole
trace. -/
theorem run_heartbeat_loop_spec (attempts : List Bool) :
    ((∃ e, run_heartbeat_loop 0 attempts = .error e) ↔
      has_three_consecutive_failures attempts = true) ∧
    (∀ (n : Nat) (rest : List Bool),
      run_heartbeat_loop n (true :: rest) = run_heartbeat_loop 0 rest) ∧
    (has_three_consecutive_failures attempts = false →
      ∃ n, run_heartbeat_loop 0 attempts = .ok n) := by
  have key := run_heartbeat_loop_error_iff attempts 0 (by omega)
  refine ⟨?_, fun n rest => rfl, ?_⟩
  · rw [key]
    constructor
    · rintro (h | h)
      · exact has_three_of_leading_ge_three attempts (by omega)
      · exact h
    · intro h
      exact Or.inr h
  · intro h
    cases hrun : run_heartbeat_loop 0 attempts with
    | ok n => exact ⟨n, rfl⟩
    | error e =>
      rcases key.mp ⟨e, hrun⟩ with h3 | h3
      · rw [has_three_of_leading_ge_three attempts (by omega)] at h
        cases h
      · rw [h3] at h
        cases h

/-- Witness for `run_heartbeat_loop_spec`: a trace with two failures, a
success, then two more failures keeps the loop running. -/
theorem run_heartbeat_loop_spec_witness :
    ∃ n, run_heartbeat_loop 0
      [false, false, true, false, false] = .ok n :=
  (run_heartbeat_loop_spec [false, false, true, false, false]).2.2 (by decide)

theorem lines_of_ne_nil (l : List Char) : lines_of l ≠ [] := by
  cases l with
  | nil => simp [lines_of]
  | cons c cs =>
    unfold lines_of
    by_cases h : c = '\n'
    · simp [h]
    · simp only [h, if_false]
      cases lines_of cs <;> simp

theorem lines_of_append_newline (a b : List Char) :
    lines_of (a ++ '\n' :: b) = lines_of a ++ lines_of b := by
  induction a with
  | nil => simp [lines_of]
  | cons c cs ih =>
    by_cases h : c = '\n'
    · subst h
      simp [lines_of, ih]
    · cases hcs : lines_of cs with
      | nil => exact absurd hcs (lines_of_ne_nil cs)
      | cons l0 t => simp [lines_of, h, ih, hcs]

theorem lines_of_no_newline (l : List Char) (h : '\n' ∉ l) :
    lines_of l = [l] := by
  induction l with
  | nil => rfl
  | cons c cs ih =>
    have hc : c ≠ '\n' := fun he => h (he ▸ List.mem_cons_self c cs)
    have hcs : '\n' ∉ cs := fun hm => h (List.mem_cons_of_mem c hm)
    simp [lines_of, hc, ih hcs]

theorem join_lines_lines_of (v : List Char) :
    join_lines (lines_of v) = v := by
  induction v with
  | nil => rfl
  | cons c cs ih =>
    cases hcs : lines_of cs with
    | nil => exact absurd hcs (lines_of_ne_nil cs)
    | cons l0 t =>
      rw [hcs] at ih
      by_cases h : c = '\n'
      · subst h
        show join_lines (lines_of ('\n' :: cs)) = '\n' :: cs
        have : lines_of ('\n' :: cs) = [] :: l0 :: t := by simp [lines_of, hcs]
        rw [this]
        show [] ++ '\n' :: join_lines (l0 :: t) = '\n' :: cs
        rw [ih]
        rfl
      · have : lines_of (c :: cs) = (c :: l0) :: t := by simp [lines_of, h, hcs]
        rw [this]
        cases t with
        | nil =>
          show c :: l0 = c :: cs
          simp only [join_lines] at ih
          rw [ih]
        | cons l1 t' =>
          show (c :: l0) ++ '\n' :: join_lines (l1 :: t') = c :: cs
          simp only [join_lines] at ih ⊢
          rw [List.cons_append, ih]

theorem takeWhile_of_append_sentinel {α : Type} (p : α → Bool)
    (l1 l2 : List α) (x : α)
    (h1 : ∀ y ∈ l1, p y = true) (hx : p x = false) :
    (l1 ++ x :: l2).takeWhile p = l1 := by
  induction l1 with
  | nil => simp [List.takeWhile_cons, hx]
  | cons a l ih =>
    have ha : p a = true := h1 a (by simp)
    simp [List.takeWhile_cons, ha,
      ih (fun y hy => h1 y (List.mem_cons_of_mem a hy))]

/-- C9: `write_output` writes nothing (and succeeds) when the
`GITHUB_OUTPUT` variable is unset; when it is set it appends the
per-value delimiter record `KEY<<DELIM`, the value, then `DELIM` on its
own line, each newline-terminated — and reading the record back
(dropping the header line, taking lines up to the delimiter line,
re-joining with newlines) recovers the original value, even when the
value contains newlines, as long as no line of the value equals the
(per-value random) delimiter and neither key nor delimiter contains a
newline. -/
theorem write_output_spec (path : String)
    (file key delim value : List Char)
    (hkey : '\n' ∉ key) (hdelim : '\n' ∉ delim)
    (hvalue : delim ∉ lines_of value) :
    write_output none file key delim value = .ok file ∧
    write_output (some path) file key delim value =
      .ok (file ++ encode_output key delim value) ∧
    parse_delimited_value delim (encode_output key delim value) = value := by
  refine ⟨rfl, rfl, ?_⟩
  unfold parse_delimited_value
  have hheader : '\n' ∉ key ++ ['<', '<'] ++ delim := by
    intro hm
    rcases List.mem_append.mp hm with hm' | hm'
    · rcases List.mem_append.mp hm' with hk | hk
      · exact hkey hk
      · simp at hk
    · exact hdelim hm'
  have henc : encode_output key delim value =
      (key ++ ['<', '<'] ++ delim) ++ '\n' ::
        (value ++ '\n' :: (delim ++ '\n' :: [])) := by
    unfold encode_output
    simp
  have hlines : lines_of (encode_output key delim value) =
      (key ++ ['<', '<'] ++ delim) :: (lines_of value ++ [delim, []]) := by
    rw [henc, lines_of_append_newline, lines_of_no_newline _ hheader,
      lines_of_append_newline, lines_of_append_newline,
      lines_of_no_newline _ hdelim]
    rfl
  rw [hlines]
  simp only [List.drop_succ_cons, List.drop_zero]
  rw [show lines_of value ++ [delim, []] =
      lines_of value ++ delim :: [[]] from rfl]
  rw [takeWhile_of_append_sentinel (fun l => decide (l ≠ delim))
    (lines_of value) [[]] delim
    (fun y hy => by
      simp only [decide_eq_true_eq, ne_eq]
      intro he
      rw [he] at hy
      exact hvalue hy)
    (by simp)]
  exact join_lines_lines_of value

/-- Witness for `write_output_spec`: a two-line value round-trips through
the delimiter encoding. -/
theorem write_output_spec_witness :
    parse_delimited_value "D4".data
      (encode_output "active-outliers".data "D4".data "a\nb".data) =
      "a\nb".data :=
  (write_output_spec "out" [] "active-outliers".data "D4".data "a\nb".data
    (by decide) (by decide) (by decide)).2.2

theorem apply_cancel_id (now : Int) (note : Option String)
    (d : Deployment) : (apply_cancel now note d).id = d.id := rfl

theorem sweep_mark_id (now : Int) (note : Option String)
    (stale_p : Deployment → Bool) (done : List Int) (d : Deployment) :
    (sweep_mark now note stale_p done d).id = d.id := by
  unfold sweep_mark
  split <;> rfl

theorem eq_of_mem_of_same_id (table : List Deployment)
    (htids : table.Pairwise (fun a b => a.id ≠ b.id)) {a b : Deployment}
    (ha : a ∈ table) (hb : b ∈ table) (hid : a.id = b.id) : a = b := by
  by_contra hne
  exact htids.forall (fun {_x _y} h => Ne.symm h) ha hb hne hid

theorem cancel_deployment_sweep_step (table : List Deployment)
    (htids : table.Pairwise (fun a b => a.id ≠ b.id))
    (now : Int) (note : Option String) (stale_p : Deployment → Bool)
    (hguard : ∀ d, stale_p d = true →
      verify_deployment_can_be_cancelled d = true)
    (done : List Int) (s : Deployment) (hsT : s ∈ table)
    (hstale : stale_p s = true) (hdone : s.id ∉ done) :
    cancel_deployment (table.map (sweep_mark now note stale_p done))
        s.id note now =
      .ok (table.map (sweep_mark now note stale_p (done ++ [s.id]))) := by
  have hmark_s : sweep_mark now note stale_p done s = s := by
    unfold sweep_mark
    simp [hdone]
  unfold cancel_deployment guarded_update
  have hany : ((table.map (sweep_mark now note stale_p done)).any
      fun d => d.id == s.id && !verify_deployment_can_be_cancelled d) =
        false := by
    rw [List.any_eq_false]
    intro x hx
    obtain ⟨d0, hd0, rfl⟩ := List.mem_map.mp hx
    by_cases hid : d0.id = s.id
    · have hds : d0 = s := eq_of_mem_of_same_id table htids hd0 hsT hid
      subst hds
      rw [hmark_s]
      simp [hguard _ hstale]
    · rw [Bool.and_eq_true, sweep_mark_id]
      rintro ⟨h1, -⟩
      exact hid (by simpa using h1)
  rw [hany]
  simp only [Bool.false_eq_true, if_false, List.map_map, Except.ok.injEq]
  apply List.map_congr_left
  intro d0 hd0
  simp only [Function.comp_apply]
  by_cases hid : d0.id = s.id
  · have hds : d0 = s := eq_of_mem_of_same_id table htids hd0 hsT hid
    subst hds
    rw [hmark_s]
    unfold sweep_mark
    simp [hstale]
  · have hmid : (sweep_mark now note stale_p done d0).id = d0.id :=
      sweep_mark_id now note stale_p done d0
    have hne : ((sweep_mark now note stale_p done d0).id == s.id) = false := by
      rw [hmid]
      simpa using hid
    rw [if_neg (by simp [hne])]
    unfold sweep_mark
    have : decide (d0.id ∈ done ++ [s.id]) = decide (d0.id ∈ done) := by
      simp [List.mem_append, hid]
    rw [this]

theorem sweep_foldlM (table : List Deployment)
    (htids : table.Pairwise (fun a b => a.id ≠ b.id))
    (now : Int) (note : Option String) (stale_p : Deployment → Bool)
    (hguard : ∀ d, stale_p d = true →
      verify_deployment_can_be_cancelled d = true) :
    ∀ (S : List Deployment) (done : List Int),
      S.Pairwise (fun a b => a.id ≠ b.id) →
      (∀ s ∈ S, s ∈ table ∧ stale_p s = true ∧ s.id ∉ done) →
      S.foldlM (fun tbl d => cancel_deployment tbl d.id note now)
        (table.map (sweep_mark now note stale_p done)) =
      .ok (table.map
        (sweep_mark now note stale_p (done ++ S.map Deployment.id))) := by
  intro S
  induction S with
  | nil =>
    intro done _ _
    simp only [List.foldlM_nil, List.map_nil, List.append_nil]
    rfl
  | cons s S' ih =>
    intro done hpair hmem
    obtain ⟨hsT, hstale, hdone⟩ := hmem s (List.mem_cons_self s S')
    rw [List.foldlM_cons,
      cancel_deployment_sweep_step table htids now note stale_p hguard
        done s hsT hstale hdone]
    have hbind : (Except.ok (table.map
          (sweep_mark now note stale_p (done ++ [s.id]))) >>=
        fun tbl => S'.foldlM
          (fun tbl d => cancel_deployment tbl d.id note now) tbl) =
        S'.foldlM (fun tbl d => cancel_deployment tbl d.id note now)
          (table.map (sweep_mark now note stale_p (done ++ [s.id]))) := rfl
    rw [hbind, ih (done ++ [s.id]) (List.pairwise_cons.mp hpair).2 ?_]
    · rw [List.map_cons, List.append_assoc]
      rfl
    · intro s' hs'
      obtain ⟨hT', hst', hd'⟩ := hmem s' (List.mem_cons_of_mem s hs')
      refine ⟨hT', hst', ?_⟩
      have hne : s.id ≠ s'.id := (List.pairwise_cons.mp hpair).1 s' hs'
      have hne' : s'.id ≠ s.id := fun h => hne h.symm
      simp [List.mem_append, hd', hne']

theorem except_ok_bind {α β : Type} (a : α) (f : α → Except String β) :
    (Except.ok a >>= f) = f a := rfl

theorem running_has_open_lifecycle (d : Deployment)
    (h : d.state = .Running) :
    d.finish_timestamp = none ∧ d.cancellation_timestamp = none := by
  cases hs : d.start_timestamp <;> cases hf : d.finish_timestamp <;>
    cases hc : d.cancellation_timestamp <;>
    simp_all [Deployment.state, DeploymentState.from_timestamps]

/-- C5: the stale-heartbeat sweep (run at the top of every wait-loop
iteration, before the blockers query) succeeds and rewrites the table so
that exactly the deployments in state `Running` whose heartbeat is more
than `HEARTBEAT_TIMEOUT` (15 minutes) old are cancelled, each with
cancellation note exactly "Cancelled by deployment (caller id) due to
stale heartbeat", while every deployment with a fresh (or no) heartbeat
and every non-running deployment is left untouched; the wait-loop
iteration then reads the blockers from the swept table. -/
theorem stale_heartbeat_sweep_spec (bt : String → Int)
    (table : List Deployment) (caller_id now : Int)
    (htids : table.Pairwise (fun a b => a.id ≠ b.id)) :
    ∃ swept,
      cancel_stale_heartbeat_deployments table caller_id now = .ok swept ∧
      swept = table.map (fun d =>
        if is_stale HEARTBEAT_TIMEOUT now d then
          { d with
            cancellation_timestamp := some now
            cancellation_note := some ("Cancelled by deployment " ++
              toString caller_id ++ " due to stale heartbeat") }
        else d) ∧
      (∀ d, is_stale HEARTBEAT_TIMEOUT now d = true ↔
        d.state = .Running ∧
          ∃ h, d.heartbeat_timestamp = some h ∧ now - h > 15 * 60) ∧
      (∀ c, swept.find? (fun d => d.id == caller_id) = some c →
        wait_loop_iteration bt table caller_id now =
          .ok (swept, blocking_deployments bt swept c now)) := by
  have hguard : ∀ d, is_stale HEARTBEAT_TIMEOUT now d = true →
      verify_deployment_can_be_cancelled d = true := by
    intro d hd
    have hrun : d.state = .Running := by
      unfold is_stale at hd
      rw [Bool.and_eq_true] at hd
      exact of_decide_eq_true hd.1
    obtain ⟨hf, hc⟩ := running_has_open_lifecycle d hrun
    simp [verify_deployment_can_be_cancelled, hf, hc]
  have hinit : table = table.map
      (sweep_mark now (some (stale_cancellation_note caller_id))
        (is_stale HEARTBEAT_TIMEOUT now) []) := by
    refine (List.map_id'' (fun d => ?_) table).symm
    simp [sweep_mark]
  have hfold := sweep_foldlM table htids now
    (some (stale_cancellation_note caller_id))
    (is_stale HEARTBEAT_TIMEOUT now) hguard
    (stale_heartbeat_deployments table now HEARTBEAT_TIMEOUT) []
    (htids.filter _)
    (fun s hs => by
      rw [stale_heartbeat_deployments, List.mem_filter] at hs
      exact ⟨hs.1, hs.2, by simp⟩)
  rw [← hinit] at hfold
  have hrun : cancel_stale_heartbeat_deployments table caller_id now =
      .ok (table.map (sweep_mark now
        (some (stale_cancellation_note caller_id))
        (is_stale HEARTBEAT_TIMEOUT now)
        ([] ++ (stale_heartbeat_deployments table now
          HEARTBEAT_TIMEOUT).map Deployment.id))) := by
    unfold cancel_stale_heartbeat_deployments
    exact hfold
  refine ⟨_, hrun, ?_, ?_, ?_⟩
  · apply List.map_congr_left
    intro d hd
    unfold sweep_mark
    by_cases hst : is_stale HEARTBEAT_TIMEOUT now d = true
    · have hmem : d.id ∈ ([] ++ (stale_heartbeat_deployments table now
          HEARTBEAT_TIMEOUT).map Deployment.id) := by
        simp only [List.nil_append, List.mem_map]
        exact ⟨d, by
          rw [stale_heartbeat_deployments, List.mem_filter]
          exact ⟨hd, hst⟩, rfl⟩
      have hdec : decide (d.id ∈ ([] ++ (stale_heartbeat_deployments table
          now HEARTBEAT_TIMEOUT).map Deployment.id)) = true :=
        decide_eq_true hmem
      have hcond : (is_stale HEARTBEAT_TIMEOUT now d &&
          decide (d.id ∈ ([] ++ (stale_heartbeat_deployments table
            now HEARTBEAT_TIMEOUT).map Deployment.id))) = true := by
        rw [hst, hdec]
        rfl
      rw [hcond, if_pos rfl, if_pos hst]
      simp [apply_cancel, stale_cancellation_note]
    · simp [hst]
  · intro d
    unfold is_stale
    cases hh : d.heartbeat_timestamp <;>
      simp [hh, HEARTBEAT_TIMEOUT]
  · intro c hfind
    unfold wait_loop_iteration
    rw [hrun]
    simp only [except_ok_bind]
    rw [hfind]

/-- Witness for `stale_heartbeat_sweep_spec`: with a running fixture row
whose heartbeat is 1000 seconds old and a queued fixture row, the sweep
cancels exactly the stale running row. -/
theorem stale_heartbeat_sweep_spec_witness :
    ∃ swept, cancel_stale_heartbeat_deployments
        [running_deployment_row, test_deployment_row] 1 1000 = .ok swept ∧
      swept = [apply_cancel 1000 (some (stale_cancellation_note 1))
        running_deployment_row, test_deployment_row] := by
  obtain ⟨swept, hok, hmap, -, -⟩ :=
    stale_heartbeat_sweep_spec (fun _ => 0)
      [running_deployment_row, test_deployment_row] 1 1000 (by decide)
  refine ⟨swept, hok, ?_⟩
  rw [hmap]
  rfl

/-- Witness for `cancel_reissue_is_noop`: re-cancelling the cancelled
fixture row by id leaves it untouched. -/
theorem cancel_reissue_is_noop_witness :
    (db_after [cancelled_deployment_row]
      (cancel_deployment [cancelled_deployment_row] 3 (some "again") 9))[0]? =
      some cancelled_deployment_row :=
  (cancel_reissue_is_noop [cancelled_deployment_row] 9 5 (some "again") 0
    (by decide) rfl).1 3

end DeployQueue
